import Mathlib

/-!
Verification of the EBP data-ingestion pipeline (`ingest_ebp_data.py`).

The script is a pandas ETL pipeline.  We embed the parts of pandas it uses
over an untyped, row-oriented table model:

  * a `Val` is one cell value (pandas NaN/None is `Val.null`; nested JSON
    objects, used only for the contracts `product` column, are modelled as
    string-to-string association lists);
  * a `DataFrame` is a list of column names plus a list of rows, each row a
    list of cells positionally aligned with the column names;
  * pandas operations that can raise (`df[missing_column]`, `df.drop` with a
    missing column) are embedded as `Option`/`Except`-valued functions, with
    `none`/`.error` standing for the raised `KeyError`.

All definitions in the `EBP` namespace are translated from the source file
`ingest_ebp_data.py`; definitions whose name contains `Spec` restate a
sentence of the specification for comparison with the code-derived ones.
-/

namespace EBP

/-- One cell value of a table.  `null` is pandas NaN / Python None; `obj`
models a nested JSON object (only its string fields are ever read, via
`dict.get`). -/
inductive Val where
  | null : Val
  | str (s : String) : Val
  | num (n : Nat) : Val
  | date (y m d : Nat) : Val
  | obj (fields : List (String × String)) : Val
deriving DecidableEq, Repr

/-- A pandas DataFrame: column names plus rows of cells, positionally
aligned (row `r` has the value of column `cols[i]` at position `i`). -/
structure DataFrame where
  cols : List String
  rows : List (List Val)
deriving DecidableEq, Repr

/-- Well-formedness: every row has exactly one cell per column. -/
def DataFrame.WF (df : DataFrame) : Prop :=
  ∀ r ∈ df.rows, r.length = df.cols.length

instance (df : DataFrame) : Decidable df.WF :=
  inferInstanceAs (Decidable (∀ r ∈ df.rows, r.length = df.cols.length))

/-- `df.empty` in pandas: true when there are no rows or no columns. -/
def dfEmpty (df : DataFrame) : Bool :=
  df.rows.isEmpty || df.cols.isEmpty

/-- Cell at position `i` of a row (out of range reads give `null`; the
pipeline only reads in-range positions of well-formed tables). -/
def cellAt : List Val → Nat → Val
  | [], _ => Val.null
  | v :: _, 0 => v
  | _ :: vs, i + 1 => cellAt vs i

/-- Replace position `i` of a row (no-op out of range). -/
def setAt : List Val → Nat → Val → List Val
  | [], _, _ => []
  | _ :: vs, 0, v => v :: vs
  | w :: vs, i + 1, v => w :: setAt vs i v

/-- Column name at position `i` (default `""` out of range). -/
def nameAt : List String → Nat → String
  | [], _ => ""
  | c :: _, 0 => c
  | _ :: cs, i + 1 => nameAt cs i

/-- Index of the first column with the given name (`df.columns.get_loc`). -/
def colIdx : List String → String → Option Nat
  | [], _ => none
  | c :: cs, n => if c = n then some 0 else (colIdx cs n).map (· + 1)

/-- `name in df.columns`. -/
def containsStr : List String → String → Bool
  | [], _ => false
  | c :: cs, n => if c = n then true else containsStr cs n

/-- Membership of a value in a list of values (`Series.isin` against a set,
and Python `dict` key lookup use value equality; pandas also matches NaN
against NaN in `isin`, which plain equality on `Val` reproduces). -/
def containsVal : List Val → Val → Bool
  | [], _ => false
  | w :: ws, v => if w = v then true else containsVal ws v

/-- `df[name]`: the column as a list of cells; `none` is the `KeyError`
raised when the column is absent. -/
def getCol (df : DataFrame) (n : String) : Option (List Val) :=
  (colIdx df.cols n).map (fun i => df.rows.map (fun r => cellAt r i))

/-- Pair rows with the cells of an aligned series, replacing position `i`
of each row. -/
def zipSet (i : Nat) : List (List Val) → List Val → List (List Val)
  | r :: rs, v :: vs => setAt r i v :: zipSet i rs vs
  | _, _ => []

/-- Pair rows with the cells of an aligned series, appending the cell to
each row. -/
def zipApp : List (List Val) → List Val → List (List Val)
  | r :: rs, v :: vs => (r ++ [v]) :: zipApp rs vs
  | _, _ => []

/-- `df[name] = values`: replace the column if present, else append it as
the last column (pandas column assignment of an aligned series). -/
def setCol (df : DataFrame) (n : String) (vs : List Val) : DataFrame :=
  match colIdx df.cols n with
  | some i => { cols := df.cols, rows := zipSet i df.rows vs }
  | none => { cols := df.cols ++ [n], rows := zipApp df.rows vs }

/-- `df[names]`: projection onto a list of column names (callers only pass
names that are present; an absent name would read as a `null` column). -/
def selectCols (df : DataFrame) (ns : List String) : DataFrame :=
  { cols := ns,
    rows := df.rows.map (fun r =>
      ns.map (fun n => (colIdx df.cols n).elim Val.null (fun i => cellAt r i))) }

/-- Keep the cells of a row whose column flag is `true`. -/
def maskRow : List Bool → List Val → List Val
  | tf :: fs, v :: vs => if tf then v :: maskRow fs vs else maskRow fs vs
  | _, _ => []

/-- Keep the columns satisfying `p` (used by `df.drop(columns=...)`). -/
def filterColumns (df : DataFrame) (p : String → Bool) : DataFrame :=
  { cols := df.cols.filter p,
    rows := df.rows.map (maskRow (df.cols.map p)) }

/-- First match in a string-to-string association list (Python `dict`
lookup, for dicts built with distinct keys). -/
def lookupStr : List (String × String) → String → Option String
  | [], _ => none
  | p :: ps, k => if p.1 = k then some p.2 else lookupStr ps k

/-- `safe_rename_columns` (ingest_ebp_data.py:194-200): keep only the
mapping entries whose old name is a column of `df`, then rename those. -/
def safe_rename_columns (df : DataFrame) (mapping : List (String × String)) : DataFrame :=
  let existing := mapping.filter (fun p => containsStr df.cols p.1)
  if existing.isEmpty then df
  else { df with cols := df.cols.map (fun c => (lookupStr existing c).getD c) }

/-- `df.drop(columns=ls)` with the pandas default `errors="raise"`:
`none` is the `KeyError` raised when some listed column is absent. -/
def pandasDrop (df : DataFrame) (ls : List String) : Option DataFrame :=
  if ls.all (fun n => containsStr df.cols n) then
    some (filterColumns df (fun c => !(containsStr ls c)))
  else none

/-- `safe_drop_columns` (ingest_ebp_data.py:203-209): drop only the listed
columns that exist. -/
def safe_drop_columns (df : DataFrame) (ls : List String) : Option DataFrame :=
  let existing := ls.filter (fun n => containsStr df.cols n)
  if existing.isEmpty then some df
  else pandasDrop df existing

/-! ### Date handling (`pd.to_datetime(..., format="%Y-%m-%d", errors="coerce")`) -/

/-- Split a character list on `'-'` (the groups `strptime` matches against
`%Y`, `%m`, `%d` in the format `"%Y-%m-%d"`). -/
def splitDash : List Char → List (List Char)
  | [] => [[]]
  | c :: cs =>
      match splitDash cs with
      | [] => [[]]
      | g :: gs => if c = '-' then [] :: g :: gs else (c :: g) :: gs

/-- A non-empty all-digit group as a number. -/
def digitsToNat (l : List Char) : Option Nat :=
  if l ≠ [] ∧ l.all Char.isDigit then
    some (l.foldl (fun n c => n * 10 + (c.toNat - 48)) 0)
  else none

def isLeapYear (y : Nat) : Bool :=
  y % 4 = 0 && (y % 100 ≠ 0 || y % 400 = 0)

def daysInMonth (y m : Nat) : Nat :=
  if m = 2 then (if isLeapYear y then 29 else 28)
  else if m = 4 ∨ m = 6 ∨ m = 9 ∨ m = 11 then 30
  else 31

/-- `datetime.strptime(s, "%Y-%m-%d")`: three dash-separated digit groups
(year up to 4 digits, month/day up to 2), forming a valid calendar date;
`none` models the `ValueError` that `errors="coerce"` turns into NaT. -/
def parseDateYMD (s : String) : Option (Nat × Nat × Nat) :=
  match splitDash s.data with
  | [ys, ms, ds] =>
      match digitsToNat ys, digitsToNat ms, digitsToNat ds with
      | some y, some m, some d =>
          if ys.length ≤ 4 ∧ ms.length ≤ 2 ∧ ds.length ≤ 2 ∧
             1 ≤ y ∧ y ≤ 9999 ∧ 1 ≤ m ∧ m ≤ 12 ∧ 1 ≤ d ∧ d ≤ daysInMonth y m
          then some (y, m, d) else none
      | _, _, _ => none
  | _ => none

/-- One cell under `pd.to_datetime(..., errors="coerce")`: strings are
parsed (unparseable ones coerce to NaT = `null`), NaN stays NaT, dates pass
through, anything else coerces to NaT. -/
def toDateVal : Val → Val
  | Val.str s =>
      match parseDateYMD s with
      | some (y, m, d) => Val.date y m d
      | none => Val.null
  | Val.date y m d => Val.date y m d
  | _ => Val.null

/-- `Series.fillna(v)` on one cell. -/
def fillnaVal (fv v : Val) : Val :=
  if v = Val.null then fv else v

/-- The guarded date conversion used by the meter and contract
transformers: `if date_col in df.columns: df[c] = pd.to_datetime(df[c], ...)`. -/
def dateCoerceCol (df : DataFrame) (n : String) : DataFrame :=
  match getCol df n with
  | none => df
  | some c => setCol df n (c.map toDateVal)

/-! ### Per-entity transformers (ingest_ebp_data.py:212-360) -/

/-- `transform_buildings` (212-227): rename only. -/
def transform_buildings (df : DataFrame) : DataFrame :=
  if dfEmpty df then df
  else safe_rename_columns df
    [("id", "buildingId"), ("name", "buildingName"), ("activeState", "buildingActiveState")]

/-- `transform_utility_units` (230-250): guarded drop, then rename.
`.error` would be a raised pandas exception (never happens: the drop is
pre-filtered to existing columns). -/
def transform_utility_units (df : DataFrame) : Except String DataFrame :=
  if dfEmpty df then .ok df
  else
    match safe_drop_columns df ["participations", "participationObjects"] with
    | none => .error "KeyError"
    | some d =>
        .ok (safe_rename_columns d
          [("id", "utilityUnitId"), ("name", "utilityUnitName"),
           ("usageType", "utilityUnitUsageType"), ("activeState", "utilityUnitActiveState")])

/-- `transform_meters` (253-279): rename, then
`df['billableTo'] = df['billableTo'].fillna('2099-12-31')` — an
unconditional column read that raises `KeyError` (`.error`) when the
column is absent — then guarded date conversion of
`billableFrom`/`billableTo`. -/
def transform_meters (df : DataFrame) : Except String DataFrame :=
  if dfEmpty df then .ok df
  else
    let df1 := safe_rename_columns df [("id", "meterId"), ("activeState", "meterActiveState")]
    match getCol df1 "billableTo" with
    | none => .error "KeyError: billableTo"
    | some bt =>
        let df2 := setCol df1 "billableTo" (bt.map (fillnaVal (Val.str "2099-12-31")))
        let df3 := dateCoerceCol df2 "billableFrom"
        .ok (dateCoerceCol df3 "billableTo")

/-- `x.get('name') if isinstance(x, dict) else None` on one `product` cell. -/
def productNameOf : Val → Val
  | Val.obj fields => (lookupStr fields "name").elim Val.null Val.str
  | _ => Val.null

/-- The fixed column whitelist of `transform_contracts`. -/
def contractsRequiredColumns : List String :=
  ["contractId", "contractName", "contractActiveState", "startDate", "endDate",
   "productId", "productName", "areaId", "areaName", "loadDate"]

/-- Lines 291-297 of `transform_contracts`: `df['productName']` from the
nested `product` objects when that column exists, else a column of nulls. -/
def contractsProductStage (df : DataFrame) : DataFrame :=
  match getCol df "product" with
  | some pc => setCol df "productName" (pc.map productNameOf)
  | none => setCol df "productName" (df.rows.map (fun _ => Val.null))

/-- The rename mapping of `transform_contracts` (300-304). -/
def contractsRenameMap : List (String × String) :=
  [("id", "contractId"), ("name", "contractName"), ("activeState", "contractActiveState")]

/-- Lines 307-314 of `transform_contracts`: projection onto the whitelist
columns that exist. -/
def contractsSelectStage (df : DataFrame) : DataFrame :=
  selectCols df (contractsRequiredColumns.filter (fun n => containsStr df.cols n))

/-- `transform_contracts` (282-327): extract `productName` from the nested
`product` objects (a column of nulls when `product` is absent), rename,
project onto the whitelist of existing columns, then
`df['endDate'] = df['endDate'].fillna('2099-12-31')` — an unconditional
column read raising `KeyError` (`.error`) when `endDate` is absent — then
guarded date conversion of `startDate`/`endDate`. -/
def transform_contracts (df : DataFrame) : Except String DataFrame :=
  if dfEmpty df then .ok df
  else
    let df3 := contractsSelectStage (safe_rename_columns (contractsProductStage df) contractsRenameMap)
    match getCol df3 "endDate" with
    | none => .error "KeyError: endDate"
    | some ed =>
        let df4 := setCol df3 "endDate" (ed.map (fillnaVal (Val.str "2099-12-31")))
        let df5 := dateCoerceCol df4 "startDate"
        .ok (dateCoerceCol df5 "endDate")

/-! ### Denylist filtering (ingest_ebp_data.py:363-379 and 530-551) -/

/-- Prefix test on character lists. -/
def isPrefixB : List Char → List Char → Bool
  | [], _ => true
  | _ :: _, [] => false
  | a :: as_, b :: bs => if a = b then isPrefixB as_ bs else false

/-- Substring test: `needle` occurs contiguously in `hay`. -/
def substrB (needle hay : List Char) : Bool :=
  (List.range (hay.length + 1)).any (fun i => isPrefixB needle (hay.drop i))

/-- Case-insensitive containment of `w` in `s` (pandas
`str.contains(..., case=False)`; ASCII lowering, which covers the
configured filter words). -/
def ciContains (s w : String) : Bool :=
  substrB (w.data.map Char.toLower) (s.data.map Char.toLower)

/-- The mask one cell gets from
`df[column].str.contains('|'.join(filter_words), case=False, na=False)`:
non-strings and NaN give `False` (`na=False`); a string is matched against
the joined pattern, which for metacharacter-free words is alternation of
literal substrings — and for an empty word list is the empty pattern,
which matches every string. -/
def patternMask (words : List String) : Val → Bool
  | Val.str s => if words.isEmpty then true else words.any (fun w => ciContains s w)
  | _ => false

/-- The specification's removal predicate for the denylist filter: a row
is removed exactly when its name cell is a string containing at least one
of the configured filter words as a substring, case-insensitively (OR
across all words).  Written from the spec for comparison with
`patternMask`; the two differ only on the empty word list. -/
def specDenyMatch (words : List String) : Val → Bool
  | Val.str s => words.any (fun w => ciContains s w)
  | _ => false

/-- `apply_data_filters` (363-379): drop the rows whose `colName` cell
matches the joined filter-word pattern; unchanged when the table is empty
or the column is absent. -/
def apply_data_filters (df : DataFrame) (words : List String) (colName : String) : DataFrame :=
  match colIdx df.cols colName with
  | none => df
  | some i =>
      if dfEmpty df then df
      else { df with rows := df.rows.filter (fun r => !(patternMask words (cellAt r i))) }

/-- The per-table body of the cascade in `main` (538-551): keep the rows of
a dependent table whose `areaId` cell is in the retained id list; unchanged
when the table is empty or has no `areaId` column. -/
def filterByAreaIds (valid : List Val) (dep : DataFrame) : DataFrame :=
  if dfEmpty dep then dep
  else
    match colIdx dep.cols "areaId" with
    | none => dep
    | some i => { dep with rows := dep.rows.filter (fun r => containsVal valid (cellAt r i)) }

/-- The filter stage of `main` (530-551) for the areas table and one
dependent table (the code applies `filterByAreaIds` identically to
contracts, utility units and buildings): filter areas by the denylist;
only when the filtered areas table is non-empty, read its `areaId` column
(`none` models the `KeyError` when it is missing) and gate the dependent
table by membership. -/
def filterStage (words : List String) (dfa dep : DataFrame) :
    Option (DataFrame × DataFrame) :=
  let dfa2 := apply_data_filters dfa words "areaName"
  if dfEmpty dfa2 then some (dfa2, dep)
  else
    match getCol dfa2 "areaId" with
    | none => none
    | some valid => some (dfa2, filterByAreaIds valid dep)

/-! ### Cross-linker (ingest_ebp_data.py:517-524) -/

/-- Lookup in the dict `dfb.set_index('buildingId')['areaId'].to_dict()`:
when several rows share a key the later row wins (later dict insertions
overwrite earlier ones). -/
def lastAssoc (ib ia : Nat) : List (List Val) → Val → Option Val
  | [], _ => none
  | r :: rs, k =>
      match lastAssoc ib ia rs k with
      | some v => some v
      | none => if cellAt r ib = k then some (cellAt r ia) else none

/-- The specification's reading of the same lookup: the area id of THE
building whose `buildingId` equals the key (first match; equal to
`lastAssoc` when building ids are unique). -/
def firstAssoc (ib ia : Nat) : List (List Val) → Val → Option Val
  | [], _ => none
  | r :: rs, k => if cellAt r ib = k then some (cellAt r ia) else firstAssoc ib ia rs k

/-- The cross-link block of `main` (517-524): when both tables are
non-empty, `dfu` has a `buildingId` column and `dfb` has an `areaId`
column, set `dfu['areaId']` to the building-map lookup of each unit's
`buildingId` (`null` on a miss, as `Series.map` gives NaN); otherwise the
units table is left unchanged.  `none` models the `KeyError` of
`set_index('buildingId')` when `dfb` has no `buildingId` column. -/
def crossLink (dfb dfu : DataFrame) : Option DataFrame :=
  match colIdx dfu.cols "buildingId", colIdx dfb.cols "areaId" with
  | some iu, some ia =>
      if dfEmpty dfu || dfEmpty dfb then some dfu
      else
        match colIdx dfb.cols "buildingId" with
        | none => none
        | some ib =>
            some (setCol dfu "areaId"
              (dfu.rows.map (fun r => (lastAssoc ib ia dfb.rows (cellAt r iu)).getD Val.null)))
  | _, _ => some dfu

/-! ### Manager email exclusion (ingest_ebp_data.py:152-153) -/

/-- `df = df[~df['email'].isin(['zev@ckw.ch'])].reset_index(drop=True)`:
keep the rows whose `email` cell differs from the excluded address
(`isin` is false for NaN against a non-NaN list, so such rows are kept);
`none` models the `KeyError` when the `email` column is absent. -/
def managerEmailFilter (df : DataFrame) : Option DataFrame :=
  (colIdx df.cols "email").map (fun i =>
    { df with rows := df.rows.filter (fun r => !(cellAt r i = Val.str "zev@ckw.ch" : Bool)) })

/-! ### Export (ingest_ebp_data.py:390-446) -/

/-- `export_dataframe_to_csv` (390-403), with the I/O environment as a
boolean (`true` = the `to_csv` write succeeds): the first component records
whether a file was written, the second is the function's return value.  An
empty table writes nothing and returns `False`; a failed write writes
nothing and returns `False`. -/
def export_dataframe_to_csv (df : DataFrame) (ioOk : Bool) : Bool × Bool :=
  if dfEmpty df then (false, false)
  else if ioOk then (true, true)
  else (false, false)

/-- The per-table loop of `export_all_data` (425-432): export each table
whose name is in the configured subdirectory list, recording each result. -/
def export_all (tables : List (String × DataFrame)) (subdirs : List String)
    (ioOk : String → Bool) : List (String × Bool) :=
  (tables.filter (fun p => containsStr subdirs p.1)).map
    (fun p => (p.1, (export_dataframe_to_csv p.2 (ioOk p.1)).2))

/-- `failed_exports = [name for name, success in export_results.items() if not success]`
(ingest_ebp_data.py:440). -/
def failedExports (results : List (String × Bool)) : List String :=
  (results.filter (fun p => !p.2)).map (fun p => p.1)

/-! ### Authentication (ingest_ebp_data.py:24-40 and 58-84) -/

/-- Outcome of one authentication HTTP round trip: a network/HTTP-status
error (any `requests.exceptions.RequestException`), or a JSON body whose
`token` field is present or absent. -/
inductive NetResult where
  | netErr : NetResult
  | ok (token : Option String) : NetResult
deriving DecidableEq, Repr

/-- The token branch of the `login` body (70-80): the pair is
`(return value, stored auth token)` — `(True, the bearer token)` when the
response body has a token, `(False, none)` when it lacks one (no
exception is raised in that case and no token is stored). -/
def tokenOutcome : Option String → Except Unit (Bool × Option String)
  | some t => .ok (true, some t)
  | none => .ok (false, none)

/-- `retry_on_failure` (24-40) driving the `login` body (58-84): up to
`fuel` attempts, drawing one outcome per attempt from the environment
list.  A `netErr` attempt raises inside the body and is caught by the
decorator, which re-raises on the last attempt and otherwise retries; an
`ok` attempt returns normally with `tokenOutcome` — `True` or `False`
alike — ending the loop at once. -/
def retryLogin : Nat → List NetResult → Except Unit (Bool × Option String)
  | 0, _ => .error ()
  | _ + 1, [] => .error ()
  | f + 1, o :: rest =>
      match o with
      | NetResult.netErr => if f = 0 then .error () else retryLogin f rest
      | NetResult.ok t => tokenOutcome t

/-- `EBP.login` as decorated: `retry_on_failure(max_retries=3, delay=2.0)`. -/
def login (outcomes : List NetResult) : Except Unit (Bool × Option String) :=
  retryLogin 3 outcomes

/-- The amended description of `login` over the outcomes of its three
possible attempts: the first attempt that does not hit a network error
decides the result via `tokenOutcome` (so a token-less body returns
`False` without raising); only three consecutive network errors re-raise.
Stated from the amended claim for comparison with `login`. -/
def loginSpec : NetResult → NetResult → NetResult → Except Unit (Bool × Option String)
  | NetResult.ok t, _, _ => tokenOutcome t
  | NetResult.netErr, NetResult.ok t, _ => tokenOutcome t
  | NetResult.netErr, NetResult.netErr, NetResult.ok t => tokenOutcome t
  | NetResult.netErr, NetResult.netErr, NetResult.netErr => .error ()

/-- `transform_areas` (330-344): rename only. -/
def transform_areas (df : DataFrame) : DataFrame :=
  if dfEmpty df then df
  else safe_rename_columns df [("id", "areaId"), ("name", "areaName")]

/-- `transform_profiles` (347-360): rename only. -/
def transform_profiles (df : DataFrame) : DataFrame :=
  if dfEmpty df then df
  else safe_rename_columns df [("id", "profileId")]

/-! ### Basic lemmas about rows, column indices and column access -/

theorem cellAt_setAt_self (r : List Val) (i : Nat) (v : Val) (h : i < r.length) :
    cellAt (setAt r i v) i = v := by
  induction r generalizing i with
  | nil => simp at h
  | cons w ws ih =>
      cases i with
      | zero => rfl
      | succ j => simpa [setAt, cellAt] using ih j (by simpa using h)

theorem cellAt_setAt_other (r : List Val) (i j : Nat) (v : Val) (h : j ≠ i) :
    cellAt (setAt r i v) j = cellAt r j := by
  induction r generalizing i j with
  | nil => rfl
  | cons w ws ih =>
      cases i with
      | zero => cases j with
        | zero => exact absurd rfl h
        | succ k => rfl
      | succ i2 => cases j with
        | zero => rfl
        | succ k => simpa [setAt, cellAt] using ih i2 k (fun hk => h (by omega))

theorem length_setAt (r : List Val) (i : Nat) (v : Val) :
    (setAt r i v).length = r.length := by
  induction r generalizing i with
  | nil => rfl
  | cons w ws ih => cases i with
    | zero => rfl
    | succ j => simpa [setAt] using ih j

theorem cellAt_append_self (r : List Val) (v : Val) :
    cellAt (r ++ [v]) r.length = v := by
  induction r with
  | nil => rfl
  | cons w ws ih => simpa [cellAt] using ih

theorem cellAt_append_lt (r : List Val) (v : Val) (j : Nat) (h : j < r.length) :
    cellAt (r ++ [v]) j = cellAt r j := by
  induction r generalizing j with
  | nil => simp at h
  | cons w ws ih =>
      cases j with
      | zero => rfl
      | succ k => simpa [cellAt] using ih k (by simpa using h)

theorem colIdx_lt {cs : List String} {n : String} {i : Nat}
    (h : colIdx cs n = some i) : i < cs.length := by
  induction cs generalizing i with
  | nil => simp [colIdx] at h
  | cons c cs ih =>
      by_cases hc : c = n
      · simp [colIdx, hc] at h
        simp [← h]
      · simp [colIdx, hc] at h
        obtain ⟨j, hj, rfl⟩ := h
        have := ih hj
        simp
        omega

theorem nameAt_colIdx {cs : List String} {n : String} {i : Nat}
    (h : colIdx cs n = some i) : nameAt cs i = n := by
  induction cs generalizing i with
  | nil => simp [colIdx] at h
  | cons c cs ih =>
      by_cases hc : c = n
      · simp [colIdx, hc] at h; subst h; simpa [nameAt]
      · simp [colIdx, hc] at h
        obtain ⟨j, hj, rfl⟩ := h
        simpa [nameAt] using ih hj

theorem colIdx_append_of_none {cs : List String} {n : String}
    (h : colIdx cs n = none) : colIdx (cs ++ [n]) n = some cs.length := by
  induction cs with
  | nil => simp [colIdx]
  | cons c cs ih =>
      by_cases hc : c = n
      · simp [colIdx, hc] at h
      · cases hx : colIdx cs n with
        | some j => simp [colIdx, hc, hx] at h
        | none => simp [colIdx, hc, ih hx]

theorem colIdx_append_other {cs : List String} {m n : String} (h : n ≠ m) :
    colIdx (cs ++ [m]) n = colIdx cs n := by
  induction cs with
  | nil => simp [colIdx, Ne.symm h]
  | cons c cs ih =>
      by_cases hc : c = n
      · simp [colIdx, hc]
      · simp [colIdx, hc, ih]

theorem containsStr_eq_isSome (cs : List String) (n : String) :
    containsStr cs n = (colIdx cs n).isSome := by
  induction cs with
  | nil => rfl
  | cons c cs ih =>
      by_cases hc : c = n
      · simp [containsStr, colIdx, hc]
      · have h1 : containsStr (c :: cs) n = containsStr cs n := by
          simp [containsStr, hc]
        have h2 : colIdx (c :: cs) n = (colIdx cs n).map (· + 1) := by
          simp [colIdx, hc]
        rw [h1, h2, ih]
        cases colIdx cs n <;> rfl

theorem colIdx_map_of_fixpoint {cs : List String} {n : String} {f : String → String}
    (hf : ∀ c, f c = n ↔ c = n) : colIdx (cs.map f) n = colIdx cs n := by
  induction cs with
  | nil => rfl
  | cons c cs ih =>
      by_cases hc : c = n
      · subst hc
        simp [colIdx, (hf c).2 rfl]
      · have hfc : f c ≠ n := fun hfc => hc ((hf c).1 hfc)
        simp [colIdx, hc, hfc, ih]

theorem cellAt_map (g : String → Val) (ns : List String) (k : Nat) (h : k < ns.length) :
    cellAt (ns.map g) k = g (nameAt ns k) := by
  induction ns generalizing k with
  | nil => simp at h
  | cons c cs ih =>
      cases k with
      | zero => rfl
      | succ j => simpa [cellAt, nameAt] using ih j (by simpa using h)

/-! ### Lemmas about `getCol` / `setCol` / rename / projection -/

theorem length_of_getCol {df : DataFrame} {n : String} {c : List Val}
    (h : getCol df n = some c) : c.length = df.rows.length := by
  unfold getCol at h
  cases hx : colIdx df.cols n with
  | none => simp [hx] at h
  | some i =>
      simp [hx] at h
      simp [← h]

theorem zipSet_proj_self (i : Nat) (rows : List (List Val)) (vs : List Val)
    (hlen : vs.length = rows.length) (hwf : ∀ r ∈ rows, i < r.length) :
    (zipSet i rows vs).map (fun r => cellAt r i) = vs := by
  induction rows generalizing vs with
  | nil => cases vs with
    | nil => rfl
    | cons v vs => simp at hlen
  | cons r rs ih =>
      cases vs with
      | nil => simp at hlen
      | cons v vs =>
          simp only [zipSet, List.map_cons]
          rw [cellAt_setAt_self r i v (hwf r (by simp))]
          rw [ih vs (by simpa using hlen) (fun r hr => hwf r (by simp [hr]))]

theorem zipSet_proj_other (i j : Nat) (rows : List (List Val)) (vs : List Val)
    (hlen : vs.length = rows.length) (hne : j ≠ i) :
    (zipSet i rows vs).map (fun r => cellAt r j) = rows.map (fun r => cellAt r j) := by
  induction rows generalizing vs with
  | nil => cases vs <;> simp [zipSet]
  | cons r rs ih =>
      cases vs with
      | nil => simp at hlen
      | cons v vs =>
          simp only [zipSet, List.map_cons]
          rw [cellAt_setAt_other r i j v hne, ih vs (by simpa using hlen)]

theorem zipApp_proj_self (rows : List (List Val)) (vs : List Val) (L : Nat)
    (hlen : vs.length = rows.length) (hwf : ∀ r ∈ rows, r.length = L) :
    (zipApp rows vs).map (fun r => cellAt r L) = vs := by
  induction rows generalizing vs with
  | nil => cases vs with
    | nil => rfl
    | cons v vs => simp at hlen
  | cons r rs ih =>
      cases vs with
      | nil => simp at hlen
      | cons v vs =>
          simp only [zipApp, List.map_cons]
          have hL : r.length = L := hwf r (by simp)
          have hhead : cellAt (r ++ [v]) L = v := by
            rw [← hL]
            exact cellAt_append_self r v
          rw [hhead, ih vs (by simpa using hlen) (fun r hr => hwf r (by simp [hr]))]

theorem zipApp_proj_other (rows : List (List Val)) (vs : List Val) (j : Nat)
    (hlen : vs.length = rows.length) (hwf : ∀ r ∈ rows, j < r.length) :
    (zipApp rows vs).map (fun r => cellAt r j) = rows.map (fun r => cellAt r j) := by
  induction rows generalizing vs with
  | nil => cases vs <;> simp [zipApp]
  | cons r rs ih =>
      cases vs with
      | nil => simp at hlen
      | cons v vs =>
          simp only [zipApp, List.map_cons]
          rw [cellAt_append_lt r v j (hwf r (by simp))]
          rw [ih vs (by simpa using hlen) (fun r hr => hwf r (by simp [hr]))]

theorem getCol_setCol_self {df : DataFrame} {vs : List Val} (n : String)
    (hwf : df.WF) (hlen : vs.length = df.rows.length) :
    getCol (setCol df n vs) n = some vs := by
  unfold setCol
  cases hx : colIdx df.cols n with
  | some i =>
      have hi : i < df.cols.length := colIdx_lt hx
      unfold getCol
      simp only [hx, Option.map_some']
      rw [zipSet_proj_self i df.rows vs hlen (fun r hr => by rw [hwf r hr]; exact hi)]
  | none =>
      unfold getCol
      simp only [colIdx_append_of_none hx, Option.map_some']
      rw [zipApp_proj_self df.rows vs df.cols.length hlen (fun r hr => hwf r hr)]

theorem getCol_setCol_other {df : DataFrame} {vs : List Val} {n n' : String}
    (hne : n' ≠ n) (hwf : df.WF) (hlen : vs.length = df.rows.length) :
    getCol (setCol df n vs) n' = getCol df n' := by
  unfold setCol
  cases hx : colIdx df.cols n with
  | some i =>
      unfold getCol
      simp only
      cases hy : colIdx df.cols n' with
      | none => simp
      | some j =>
          have hji : j ≠ i := by
            intro hji
            apply hne
            rw [← nameAt_colIdx hy, hji, nameAt_colIdx hx]
          simp only [Option.map_some']
          rw [zipSet_proj_other i j df.rows vs hlen hji]
  | none =>
      unfold getCol
      simp only [colIdx_append_other hne]
      cases hy : colIdx df.cols n' with
      | none => simp
      | some j =>
          have hj : j < df.cols.length := colIdx_lt hy
          simp only [Option.map_some']
          rw [zipApp_proj_other df.rows vs j hlen (fun r hr => by rw [hwf r hr]; exact hj)]

theorem length_zipSet (i : Nat) (rows : List (List Val)) (vs : List Val)
    (hlen : vs.length = rows.length) : (zipSet i rows vs).length = rows.length := by
  induction rows generalizing vs with
  | nil => cases vs <;> simp [zipSet]
  | cons r rs ih =>
      cases vs with
      | nil => simp at hlen
      | cons v vs => simpa [zipSet] using ih vs (by simpa using hlen)

theorem length_mem_zipSet {i : Nat} {rows : List (List Val)} {vs : List Val} {r : List Val}
    (hr : r ∈ zipSet i rows vs) : ∃ r0 ∈ rows, r.length = r0.length := by
  induction rows generalizing vs with
  | nil => cases vs <;> simp [zipSet] at hr
  | cons r0 rs ih =>
      cases vs with
      | nil => simp [zipSet] at hr
      | cons v vs =>
          simp only [zipSet, List.mem_cons] at hr
          rcases hr with hr | hr
          · exact ⟨r0, by simp, by rw [hr, length_setAt]⟩
          · obtain ⟨r1, hr1, hl⟩ := ih hr
            exact ⟨r1, by simp [hr1], hl⟩

theorem length_mem_zipApp {rows : List (List Val)} {vs : List Val} {r : List Val}
    (hr : r ∈ zipApp rows vs) : ∃ r0 ∈ rows, r.length = r0.length + 1 := by
  induction rows generalizing vs with
  | nil => cases vs <;> simp [zipApp] at hr
  | cons r0 rs ih =>
      cases vs with
      | nil => simp [zipApp] at hr
      | cons v vs =>
          simp only [zipApp, List.mem_cons] at hr
          rcases hr with hr | hr
          · exact ⟨r0, by simp, by simp [hr]⟩
          · obtain ⟨r1, hr1, hl⟩ := ih hr
            exact ⟨r1, by simp [hr1], hl⟩

theorem WF_setCol {df : DataFrame} {vs : List Val} (n : String)
    (hwf : df.WF) : (setCol df n vs).WF := by
  unfold setCol
  cases hx : colIdx df.cols n with
  | some i =>
      intro r hr
      obtain ⟨r0, hr0, hl⟩ := length_mem_zipSet hr
      rw [hl]
      exact hwf r0 hr0
  | none =>
      intro r hr
      obtain ⟨r0, hr0, hl⟩ := length_mem_zipApp hr
      simp only [List.length_append, List.length_cons, List.length_nil]
      rw [hl, hwf r0 hr0]

theorem containsStr_of_mem {cs : List String} {c : String} (h : c ∈ cs) :
    containsStr cs c = true := by
  induction cs with
  | nil => simp at h
  | cons c0 cs ih =>
      rcases List.mem_cons.1 h with h | h
      · simp [containsStr, h.symm]
      · by_cases hc : c0 = c
        · simp [containsStr, hc]
        · simp [containsStr, hc, ih h]

theorem map_congr_mem {α β : Type} {l : List α} {f g : α → β}
    (h : ∀ a ∈ l, f a = g a) : l.map f = l.map g := by
  induction l with
  | nil => rfl
  | cons a l ih =>
      simp only [List.map_cons, h a (by simp)]
      rw [ih (fun a ha => h a (by simp [ha]))]

theorem map_id_mem {α : Type} {l : List α} {f : α → α}
    (h : ∀ a ∈ l, f a = a) : l.map f = l := by
  induction l with
  | nil => rfl
  | cons a l ih =>
      simp only [List.map_cons, h a (by simp)]
      rw [ih (fun a ha => h a (by simp [ha]))]

theorem lookupStr_mem {m : List (String × String)} {k v : String}
    (h : lookupStr m k = some v) : ∃ p ∈ m, p.1 = k ∧ p.2 = v := by
  induction m with
  | nil => simp [lookupStr] at h
  | cons p ps ih =>
      by_cases hp : p.1 = k
      · simp [lookupStr, hp] at h
        exact ⟨p, by simp, hp, h⟩
      · simp [lookupStr, hp] at h
        obtain ⟨q, hq, hkv⟩ := ih h
        exact ⟨q, by simp [hq], hkv⟩

theorem lookupStr_filter_of_contains {cs : List String} {m : List (String × String)}
    {c : String} (hc : containsStr cs c = true) :
    lookupStr (m.filter (fun p => containsStr cs p.1)) c = lookupStr m c := by
  induction m with
  | nil => rfl
  | cons p ps ih =>
      by_cases hp : p.1 = c
      · have : containsStr cs p.1 = true := by rw [hp]; exact hc
        simp [List.filter_cons, this, hc, lookupStr, hp]
      · by_cases hkeep : containsStr cs p.1 = true
        · simp [List.filter_cons, hkeep, lookupStr, hp, ih]
        · simp [List.filter_cons, hkeep, lookupStr, hp, ih]

theorem safe_rename_rows (df : DataFrame) (m : List (String × String)) :
    (safe_rename_columns df m).rows = df.rows := by
  unfold safe_rename_columns
  by_cases hx : (m.filter (fun p => containsStr df.cols p.1)).isEmpty <;> simp [hx]

theorem safe_rename_cols (df : DataFrame) (m : List (String × String)) :
    (safe_rename_columns df m).cols = df.cols.map (fun c => (lookupStr m c).getD c) := by
  unfold safe_rename_columns
  by_cases hx : (m.filter (fun p => containsStr df.cols p.1)).isEmpty
  · simp only [hx, if_pos]
    refine (map_id_mem (fun c hc => ?_)).symm
    cases hl : lookupStr m c with
    | none => rfl
    | some v =>
        obtain ⟨p, hp, hpk, _⟩ := lookupStr_mem hl
        have : p ∈ m.filter (fun p => containsStr df.cols p.1) :=
          List.mem_filter.2 ⟨hp, by rw [hpk]; exact containsStr_of_mem hc⟩
        rw [List.isEmpty_iff] at hx
        simp [hx] at this
  · simp only [hx, if_neg, Bool.false_eq_true, not_false_iff]
    refine map_congr_mem (fun c hc => ?_)
    rw [lookupStr_filter_of_contains (containsStr_of_mem hc)]

theorem WF_rename {df : DataFrame} (m : List (String × String)) (hwf : df.WF) :
    (safe_rename_columns df m).WF := by
  intro r hr
  rw [safe_rename_rows] at hr
  rw [safe_rename_cols, List.length_map]
  exact hwf r hr

theorem getCol_rename_untouched {df : DataFrame} {m : List (String × String)} {n : String}
    (hk : ∀ p ∈ m, p.1 ≠ n) (hv : ∀ p ∈ m, p.2 ≠ n) :
    getCol (safe_rename_columns df m) n = getCol df n := by
  have hcols := safe_rename_cols df m
  have hrows := safe_rename_rows df m
  unfold getCol
  rw [hcols, hrows]
  rw [colIdx_map_of_fixpoint (fun c => ?_)]
  constructor
  · intro hfc
    cases hl : lookupStr m c with
    | none => rw [hl] at hfc; simpa using hfc
    | some v =>
        rw [hl] at hfc
        simp at hfc
        obtain ⟨p, hp, _, hpv⟩ := lookupStr_mem hl
        exact absurd (hpv.trans hfc) (hv p hp)
  · intro hc
    subst hc
    cases hl : lookupStr m c with
    | none => simp
    | some v =>
        obtain ⟨p, hp, hpk, _⟩ := lookupStr_mem hl
        exact absurd hpk (hk p hp)

theorem WF_select (df : DataFrame) (ns : List String) : (selectCols df ns).WF := by
  intro r hr
  unfold selectCols at hr
  simp only [List.mem_map] at hr
  obtain ⟨r0, _, hr0⟩ := hr
  simp [← hr0, selectCols]

theorem getCol_select {df : DataFrame} {ns : List String} {n : String}
    (hin : containsStr ns n = true) (hdf : (colIdx df.cols n).isSome) :
    getCol (selectCols df ns) n = getCol df n := by
  rw [containsStr_eq_isSome] at hin
  obtain ⟨k, hk⟩ := Option.isSome_iff_exists.1 hin
  obtain ⟨i, hi⟩ := Option.isSome_iff_exists.1 hdf
  unfold getCol selectCols
  simp only [hk, hi, Option.map_some']
  congr 1
  rw [List.map_map]
  refine map_congr_mem (fun r _ => ?_)
  simp only [Function.comp]
  rw [cellAt_map _ ns k (colIdx_lt hk), nameAt_colIdx hk, hi]
  rfl

theorem getCol_dateCoerce_self {df : DataFrame} {n : String} {c : List Val}
    (hwf : df.WF) (h : getCol df n = some c) :
    getCol (dateCoerceCol df n) n = some (c.map toDateVal) := by
  unfold dateCoerceCol
  rw [h]
  exact getCol_setCol_self n hwf (by simp [length_of_getCol h])

theorem getCol_dateCoerce_other {df : DataFrame} {n n' : String}
    (hne : n' ≠ n) (hwf : df.WF) :
    getCol (dateCoerceCol df n) n' = getCol df n' := by
  unfold dateCoerceCol
  cases h : getCol df n with
  | none => rfl
  | some c => exact getCol_setCol_other hne hwf (by simp [length_of_getCol h])

theorem WF_dateCoerce {df : DataFrame} (n : String) (hwf : df.WF) :
    (dateCoerceCol df n).WF := by
  unfold dateCoerceCol
  cases h : getCol df n with
  | none => exact hwf
  | some c => exact WF_setCol n hwf

theorem dfEmpty_eq_false {df : DataFrame} (hr : df.rows ≠ []) (hc : df.cols ≠ []) :
    dfEmpty df = false := by
  simp [dfEmpty, hr, hc]

theorem mem_of_containsStr {cs : List String} {c : String}
    (h : containsStr cs c = true) : c ∈ cs := by
  induction cs with
  | nil => simp [containsStr] at h
  | cons c0 cs ih =>
      by_cases hc : c0 = c
      · simp [hc]
      · simp [containsStr, hc] at h
        simp [ih h]

theorem filter_eq_self_mem {α : Type} {l : List α} {p : α → Bool}
    (h : ∀ a ∈ l, p a = true) : l.filter p = l := by
  induction l with
  | nil => rfl
  | cons a l ih =>
      rw [List.filter_cons, if_pos (h a (by simp))]
      rw [ih (fun a ha => h a (by simp [ha]))]

theorem filter_congr_mem {α : Type} {l : List α} {p q : α → Bool}
    (h : ∀ a ∈ l, p a = q a) : l.filter p = l.filter q := by
  induction l with
  | nil => rfl
  | cons a l ih =>
      rw [List.filter_cons, List.filter_cons, h a (by simp)]
      rw [ih (fun a ha => h a (by simp [ha]))]

theorem maskRow_alltrue {flags : List Bool} {r : List Val}
    (h : ∀ b ∈ flags, b = true) (hlen : r.length = flags.length) :
    maskRow flags r = r := by
  induction flags generalizing r with
  | nil => cases r with
    | nil => rfl
    | cons v vs => simp at hlen
  | cons b bs ih =>
      cases r with
      | nil => simp at hlen
      | cons v vs =>
          rw [maskRow, if_pos (h b (by simp))]
          rw [ih (fun b hb => h b (by simp [hb])) (by simpa using hlen)]

theorem lastAssoc_eq_none {ib ia : Nat} {rows : List (List Val)} {k : Val}
    (h : ∀ r ∈ rows, cellAt r ib ≠ k) : lastAssoc ib ia rows k = none := by
  induction rows with
  | nil => rfl
  | cons r rs ih =>
      rw [lastAssoc, ih (fun r hr => h r (by simp [hr]))]
      simp [h r (by simp)]

theorem lastAssoc_eq_firstAssoc {ib ia : Nat} {rows : List (List Val)} {k : Val}
    (h : (rows.map (fun r => cellAt r ib)).Nodup) :
    lastAssoc ib ia rows k = firstAssoc ib ia rows k := by
  induction rows with
  | nil => rfl
  | cons r rs ih =>
      rw [List.map_cons, List.nodup_cons] at h
      by_cases hk : cellAt r ib = k
      · have hnone : lastAssoc ib ia rs k = none := by
          refine lastAssoc_eq_none (fun r2 hr2 hk2 => h.1 ?_)
          rw [hk, ← hk2]
          exact List.mem_map_of_mem _ hr2
        rw [lastAssoc, hnone, firstAssoc]
        simp [hk]
      · rw [lastAssoc, ih h.2, firstAssoc, if_neg hk]
        cases firstAssoc ib ia rs k <;> simp [hk]

theorem patternMask_eq_specDenyMatch {words : List String} (hw : words ≠ []) (v : Val) :
    patternMask words v = specDenyMatch words v := by
  cases v <;> simp [patternMask, specDenyMatch, hw]

theorem colIdx_isSome_of_getCol {df : DataFrame} {n : String} {c : List Val}
    (h : getCol df n = some c) : (colIdx df.cols n).isSome := by
  unfold getCol at h
  cases hx : colIdx df.cols n with
  | none => rw [hx] at h; simp at h
  | some i => rfl

theorem cols_ne_nil_of_colIdx {cs : List String} {n : String} {i : Nat}
    (h : colIdx cs n = some i) : cs ≠ [] := by
  intro hnil
  rw [hnil] at h
  simp [colIdx] at h

/-! ### Stage lemmas for the meter and contract transformers -/

theorem getCol_productStage {df : DataFrame} {n : String} {c : List Val}
    (hwf : df.WF) (hne : n ≠ "productName") (h : getCol df n = some c) :
    getCol (contractsProductStage df) n = some c := by
  unfold contractsProductStage
  cases hp : getCol df "product" with
  | some pc =>
      rw [getCol_setCol_other hne hwf (by simp [length_of_getCol hp])]
      exact h
  | none =>
      rw [getCol_setCol_other hne hwf (by simp)]
      exact h

theorem WF_productStage {df : DataFrame} (hwf : df.WF) :
    (contractsProductStage df).WF := by
  unfold contractsProductStage
  cases hp : getCol df "product" with
  | some pc => exact WF_setCol _ hwf
  | none => exact WF_setCol _ hwf

theorem getCol_selectStage {df : DataFrame} {n : String} {c : List Val}
    (hreq : containsStr contractsRequiredColumns n = true) (h : getCol df n = some c) :
    getCol (contractsSelectStage df) n = some c := by
  unfold contractsSelectStage
  have hpred : containsStr df.cols n = true := by
    rw [containsStr_eq_isSome]
    exact colIdx_isSome_of_getCol h
  have hin : containsStr (contractsRequiredColumns.filter
      (fun m => containsStr df.cols m)) n = true :=
    containsStr_of_mem (List.mem_filter.2 ⟨mem_of_containsStr hreq, hpred⟩)
  rw [getCol_select hin (colIdx_isSome_of_getCol h)]
  exact h

theorem WF_selectStage (df : DataFrame) : (contractsSelectStage df).WF :=
  WF_select df _

/-! ### Claim theorems -/

/-- C10: every per-entity transformer (contracts, areas, buildings,
utility units, meters, profiles) applied to an empty input table returns
an empty table — in fact the very same table — and does not raise. -/
theorem c10_transformers_on_empty (df : DataFrame) (h : dfEmpty df = true) :
    transform_contracts df = Except.ok df ∧
    transform_meters df = Except.ok df ∧
    transform_utility_units df = Except.ok df ∧
    transform_areas df = df ∧
    transform_buildings df = df ∧
    transform_profiles df = df := by
  unfold transform_contracts transform_meters transform_utility_units
    transform_areas transform_buildings transform_profiles
  simp [h]

/-- Witness for C10 at a concrete empty table. -/
theorem c10_transformers_on_empty_witness :
    transform_contracts ⟨["id"], []⟩ = Except.ok ⟨["id"], []⟩ ∧
    transform_meters ⟨["id"], []⟩ = Except.ok ⟨["id"], []⟩ ∧
    transform_utility_units ⟨["id"], []⟩ = Except.ok ⟨["id"], []⟩ ∧
    transform_areas ⟨["id"], []⟩ = ⟨["id"], []⟩ ∧
    transform_buildings ⟨["id"], []⟩ = ⟨["id"], []⟩ ∧
    transform_profiles ⟨["id"], []⟩ = ⟨["id"], []⟩ :=
  c10_transformers_on_empty ⟨["id"], []⟩ (by decide)

/-- C7: for a non-empty input table lacking the `billableTo` column,
`transform_meters` raises (`KeyError`), and for a non-empty input table
lacking the `endDate` column, `transform_contracts` raises: the
sentinel-defaulting assignments read those columns unconditionally. -/
theorem c7_unguarded_sentinel_raises :
    dfEmpty ⟨["id"], [[Val.num 1]]⟩ = false ∧
    transform_meters ⟨["id"], [[Val.num 1]]⟩ = Except.error "KeyError: billableTo" ∧
    transform_contracts ⟨["id"], [[Val.num 1]]⟩ = Except.error "KeyError: endDate" := by
  refine ⟨rfl, ?_, ?_⟩ <;> rfl

/-- C2 counterexample: exporting an empty table returns `False`, and in
the run summary the table IS listed among the failed exports — the claim
that an empty table's result is never counted among the failed exports is
false. -/
theorem c2_counterexample :
    export_dataframe_to_csv ⟨["areaId"], []⟩ true = (false, false) ∧
    failedExports (export_all [("areas", ⟨["areaId"], []⟩)] ["areas"] (fun _ => true))
      = ["areas"] := by
  exact ⟨rfl, rfl⟩

/-- C2 amended: exporting an empty table writes no file and returns
`False`, and in the export summary its name is listed among the failed
exports — the same `False` result an I/O-error export produces, so the
summary does not distinguish "skipped because empty" from "I/O error". -/
theorem c2_amended (df : DataFrame) (ioOk : Bool) (name : String) (subdirs : List String)
    (hempty : dfEmpty df = true) (hsub : containsStr subdirs name = true) :
    export_dataframe_to_csv df ioOk = (false, false) ∧
    failedExports (export_all [(name, df)] subdirs (fun _ => ioOk)) = [name] := by
  simp [export_all, failedExports, export_dataframe_to_csv, hempty, hsub]

/-- Witness for C2 amended at a concrete empty table. -/
theorem c2_amended_witness :
    export_dataframe_to_csv ⟨["areaId"], []⟩ false = (false, false) ∧
    failedExports (export_all [("areas", ⟨["areaId"], []⟩)] ["areas"] (fun _ => false))
      = ["areas"] :=
  c2_amended ⟨["areaId"], []⟩ false "areas" ["areas"] (by decide) (by decide)

/-- C3 counterexample: when the first authentication response lacks a
token, `login` does not raise — it returns `False` and stores no token —
so the claim that a token-less response raises `AuthError` is false. -/
theorem c3_counterexample :
    login [NetResult.ok none] = Except.ok (false, none) ∧
    login [NetResult.ok none] ≠ Except.error () := by
  refine ⟨rfl, ?_⟩
  simp [login, retryLogin, tokenOutcome]

/-- C3 amended: over the outcomes of the (up to three) attempts, `login`
re-raises the network exception only when all three attempts hit network
errors; otherwise the first non-erroring attempt decides the result — a
response with a token stores the bearer token and returns `True`, a
response without one returns `False` without raising and stores no
token. -/
theorem c3_amended (a b c : NetResult) (rest : List NetResult) :
    login (a :: b :: c :: rest) = loginSpec a b c := by
  cases a <;> cases b <;> cases c <;>
    simp [login, retryLogin, loginSpec]

/-- C9: the column-rename and column-drop helpers never raise on any
input table: renaming maps exactly the columns that appear as mapping
keys (absent keys are skipped) and leaves the rows untouched, and
dropping always succeeds (`some`), removing exactly the listed columns
that are present and keeping every other column's cells. -/
theorem c9_safe_helpers (df : DataFrame) (m : List (String × String)) (ls : List String)
    (hwf : df.WF) :
    (safe_rename_columns df m).cols = df.cols.map (fun c => (lookupStr m c).getD c) ∧
    (safe_rename_columns df m).rows = df.rows ∧
    ∃ df2, safe_drop_columns df ls = some df2 ∧
      df2.cols = df.cols.filter (fun c => !(containsStr ls c)) ∧
      df2.rows = df.rows.map (maskRow (df.cols.map (fun c => !(containsStr ls c)))) := by
  refine ⟨safe_rename_cols df m, safe_rename_rows df m, ?_⟩
  unfold safe_drop_columns
  by_cases hx : (ls.filter (fun n => containsStr df.cols n)).isEmpty
  · simp only [hx, if_pos]
    rw [List.isEmpty_iff] at hx
    have hnone : ∀ c ∈ df.cols, (!(containsStr ls c)) = true := by
      intro c hc
      cases hcl : containsStr ls c with
      | false => rfl
      | true =>
          have hmem : c ∈ ls.filter (fun n => containsStr df.cols n) :=
            List.mem_filter.2 ⟨mem_of_containsStr hcl, containsStr_of_mem hc⟩
          rw [hx] at hmem
          simp at hmem
    refine ⟨df, rfl, (filter_eq_self_mem hnone).symm, ?_⟩
    refine (map_id_mem (fun r hr => ?_)).symm
    refine maskRow_alltrue (fun b hb => ?_) (by simp [hwf r hr])
    obtain ⟨c, hc, rfl⟩ := List.mem_map.1 hb
    exact hnone c hc
  · simp only [hx, if_neg, Bool.false_eq_true, not_false_iff]
    have hall : (ls.filter (fun n => containsStr df.cols n)).all
        (fun n => containsStr df.cols n) = true :=
      List.all_eq_true.2 (fun n hn => (List.mem_filter.1 hn).2)
    rw [pandasDrop, if_pos hall]
    have hpt : ∀ c ∈ df.cols,
        containsStr (ls.filter (fun n => containsStr df.cols n)) c = containsStr ls c := by
      intro c hc
      cases hcl : containsStr ls c with
      | true =>
          exact containsStr_of_mem
            (List.mem_filter.2 ⟨mem_of_containsStr hcl, containsStr_of_mem hc⟩)
      | false =>
          cases hce : containsStr (ls.filter (fun n => containsStr df.cols n)) c with
          | false => rfl
          | true =>
              have := (List.mem_filter.1 (mem_of_containsStr hce)).1
              rw [containsStr_of_mem this] at hcl
              exact hcl
    have hflags : df.cols.map (fun c => !(containsStr (ls.filter
          (fun n => containsStr df.cols n)) c)) =
        df.cols.map (fun c => !(containsStr ls c)) :=
      map_congr_mem (fun c hc => by rw [hpt c hc])
    refine ⟨_, rfl, ?_, ?_⟩
    · unfold filterColumns
      exact filter_congr_mem (fun c hc => by rw [hpt c hc])
    · unfold filterColumns
      rw [hflags]

/-- Witness for C9 at a concrete table, renaming a present and an absent
column and dropping a present and an absent column. -/
theorem c9_safe_helpers_witness :
    (safe_rename_columns ⟨["id", "x"], [[Val.num 1, Val.num 2]]⟩
        [("id", "areaId"), ("zzz", "www")]).cols = ["areaId", "x"] ∧
    safe_drop_columns ⟨["id", "x"], [[Val.num 1, Val.num 2]]⟩ ["x", "absent"] =
      some ⟨["id"], [[Val.num 1]]⟩ := by
  obtain ⟨h1, h2, df2, h3, h4, h5⟩ :=
    c9_safe_helpers ⟨["id", "x"], [[Val.num 1, Val.num 2]]⟩
      [("id", "areaId"), ("zzz", "www")] ["x", "absent"] (by decide)
  refine ⟨by rw [h1]; decide, ?_⟩
  rw [h3]
  have hc : df2.cols = ["id"] := by rw [h4]; decide
  have hr : df2.rows = [[Val.num 1]] := by rw [h5]; decide
  cases df2
  simp only at hc hr
  rw [hc, hr]

/-- C8: the manager-fetcher email exclusion step keeps a row exactly when
its `email` cell differs from `"zev@ckw.ch"`, regardless of all other
cells: matching rows are dropped, all others pass through. -/
theorem c8_manager_email_exclusion (df : DataFrame) (i : Nat)
    (h : colIdx df.cols "email" = some i) :
    ∃ df2, managerEmailFilter df = some df2 ∧ df2.cols = df.cols ∧
      df2.rows = df.rows.filter
        (fun r => !(cellAt r i = Val.str "zev@ckw.ch" : Bool)) ∧
      ∀ r, r ∈ df2.rows ↔ r ∈ df.rows ∧ cellAt r i ≠ Val.str "zev@ckw.ch" := by
  unfold managerEmailFilter
  rw [h]
  refine ⟨_, rfl, rfl, rfl, fun r => ?_⟩
  simp [List.mem_filter]

/-- Witness for C8: the placeholder row is dropped, a normal row and a
null-email row pass. -/
theorem c8_manager_email_exclusion_witness :
    managerEmailFilter
        ⟨["email", "x"],
         [[Val.str "zev@ckw.ch", Val.num 1], [Val.str "a@b.c", Val.num 2],
          [Val.null, Val.num 3]]⟩ =
      some ⟨["email", "x"], [[Val.str "a@b.c", Val.num 2], [Val.null, Val.num 3]]⟩ := by
  obtain ⟨df2, h1, h2, h3, _⟩ :=
    c8_manager_email_exclusion
      ⟨["email", "x"],
       [[Val.str "zev@ckw.ch", Val.num 1], [Val.str "a@b.c", Val.num 2],
        [Val.null, Val.num 3]]⟩ 0 (by decide)
  rw [h1]
  have hr : df2.rows = [[Val.str "a@b.c", Val.num 2], [Val.null, Val.num 3]] := by
    rw [h3]; decide
  cases df2
  simp only at h2 hr
  rw [h2, hr]

/-- C4 counterexample: with an empty filter-word list the joined pattern
is the empty regular expression, which matches every string, so
`apply_data_filters` removes every row with a non-null name — while the
claim ("remove exactly the rows containing at least one filter word as a
substring") would remove nothing.  The claim, quantified over every list
of filter words, is therefore false. -/
theorem c4_counterexample :
    apply_data_filters ⟨["areaId", "areaName"], [[Val.num 1, Val.str "Main"]]⟩ [] "areaName" ≠
      { cols := ["areaId", "areaName"],
        rows := [[Val.num 1, Val.str "Main"]].filter
          (fun r => !(specDenyMatch [] (cellAt r 1))) } := by
  decide

/-- C4 amended: for every NON-EMPTY list of filter words and every table
with the name column present, `apply_data_filters` removes exactly the
rows whose name cell is a string containing at least one filter word as a
case-insensitive substring (OR across the words; null and non-string
cells are never removed). -/
theorem c4_amended (df : DataFrame) (words : List String) (colName : String) (i : Nat)
    (hw : words ≠ []) (hi : colIdx df.cols colName = some i) :
    apply_data_filters df words colName =
      { df with rows := df.rows.filter (fun r => !(specDenyMatch words (cellAt r i))) } := by
  simp only [apply_data_filters, hi]
  by_cases he : dfEmpty df
  · have hrows : df.rows = [] := by
      have hor : df.rows = [] ∨ df.cols = [] := by
        simpa [dfEmpty, List.isEmpty_iff] using he
      rcases hor with h1 | h1
      · exact h1
      · exact absurd h1 (cols_ne_nil_of_colIdx hi)
    rw [if_pos he]
    cases df with
    | mk cs rs =>
        simp only at hrows
        subst hrows
        rfl
  · rw [if_neg he]
    have : df.rows.filter (fun r => !(patternMask words (cellAt r i))) =
        df.rows.filter (fun r => !(specDenyMatch words (cellAt r i))) :=
      filter_congr_mem (fun r _ => by rw [patternMask_eq_specDenyMatch hw])
    rw [this]

/-- Witness for C4 amended: the specification's own example — word
`"delete"` removes the `"To Delete"` area and keeps `"Main"`. -/
theorem c4_amended_witness :
    apply_data_filters
        ⟨["areaId", "areaName"],
         [[Val.num 1, Val.str "Main"], [Val.num 2, Val.str "To Delete"]]⟩
        ["delete"] "areaName" =
      ⟨["areaId", "areaName"], [[Val.num 1, Val.str "Main"]]⟩ := by
  rw [c4_amended _ ["delete"] "areaName" 1 (by decide) (by decide)]
  decide

/-- C1 counterexample: when every area is denylisted the filtered areas
table is empty and the code skips the cascade entirely, so a dependent
row whose `areaId` (here `5`) is NOT in the retained area-id set (here
empty) still survives — the claimed "survives iff member" equivalence
fails on this input table set. -/
theorem c1_counterexample :
    filterStage ["delete"] ⟨["areaId", "areaName"], [[Val.num 2, Val.str "To Delete"]]⟩
        ⟨["areaId"], [[Val.num 5]]⟩ =
      some (⟨["areaId", "areaName"], []⟩, ⟨["areaId"], [[Val.num 5]]⟩) ∧
    containsVal ((⟨["areaId", "areaName"], []⟩ : DataFrame).rows.map
      (fun r => cellAt r 0)) (Val.num 5) = false := by
  exact ⟨by decide, rfl⟩

/-- C1 amended: PROVIDED the denylist-filtered areas table is non-empty
(and has an `areaId` column) and the dependent table is non-empty with an
`areaId` column, a dependent row survives the filter stage iff its
`areaId` is in the retained id set of the filtered areas table; when the
filtered areas table is empty the dependent tables pass through
unfiltered (see the counterexample). -/
theorem c1_amended (words : List String) (dfa dep : DataFrame) (valid : List Val) (j : Nat)
    (hne : dfEmpty (apply_data_filters dfa words "areaName") = false)
    (hid : getCol (apply_data_filters dfa words "areaName") "areaId" = some valid)
    (hdep : dfEmpty dep = false)
    (hj : colIdx dep.cols "areaId" = some j) :
    filterStage words dfa dep =
      some (apply_data_filters dfa words "areaName",
        { dep with rows := dep.rows.filter (fun r => containsVal valid (cellAt r j)) }) ∧
    ∀ r, r ∈ dep.rows.filter (fun r => containsVal valid (cellAt r j)) ↔
      r ∈ dep.rows ∧ containsVal valid (cellAt r j) = true := by
  constructor
  · simp [filterStage, filterByAreaIds, hne, hid, hdep, hj]
  · intro r
    simp [List.mem_filter]

/-- Witness for C1 amended: the specification's example — areas
`{1 "Main", 2 "To Delete"}`, word `"delete"`; the contract referencing
area 1 survives, the one referencing area 2 is dropped. -/
theorem c1_amended_witness :
    filterStage ["delete"]
        ⟨["areaId", "areaName"],
         [[Val.num 1, Val.str "Main"], [Val.num 2, Val.str "To Delete"]]⟩
        ⟨["contractId", "areaId"], [[Val.num 10, Val.num 1], [Val.num 11, Val.num 2]]⟩ =
      some (⟨["areaId", "areaName"], [[Val.num 1, Val.str "Main"]]⟩,
            ⟨["contractId", "areaId"], [[Val.num 10, Val.num 1]]⟩) := by
  have h := (c1_amended ["delete"]
    ⟨["areaId", "areaName"],
     [[Val.num 1, Val.str "Main"], [Val.num 2, Val.str "To Delete"]]⟩
    ⟨["contractId", "areaId"], [[Val.num 10, Val.num 1], [Val.num 11, Val.num 2]]⟩
    [Val.num 1] 1 (by decide) (by decide) (by decide) (by decide)).1
  rw [h]
  decide

/-- C5: for non-empty buildings and utility-unit tables with the required
columns (and pairwise-distinct, non-null building ids, under which the
dict-based lookup in the code agrees with pandas), the cross-linker sets
each unit's `areaId` to the `areaId` of the building whose `buildingId`
equals the unit's `buildingId` cell, and to null when no such building
exists. -/
theorem c5_crosslink (dfb dfu : DataFrame) (iu ib ia : Nat)
    (hwfu : dfu.WF)
    (hbrows : dfb.rows ≠ []) (hurows : dfu.rows ≠ [])
    (hiu : colIdx dfu.cols "buildingId" = some iu)
    (hia : colIdx dfb.cols "areaId" = some ia)
    (hib : colIdx dfb.cols "buildingId" = some ib)
    (hnodup : (dfb.rows.map (fun r => cellAt r ib)).Nodup)
    (_hnonull : Val.null ∉ dfb.rows.map (fun r => cellAt r ib)) :
    ∃ df2, crossLink dfb dfu = some df2 ∧
      getCol df2 "areaId" =
        some (dfu.rows.map (fun r =>
          (firstAssoc ib ia dfb.rows (cellAt r iu)).getD Val.null)) := by
  have hue : dfEmpty dfu = false := dfEmpty_eq_false hurows (cols_ne_nil_of_colIdx hiu)
  have hbe : dfEmpty dfb = false := dfEmpty_eq_false hbrows (cols_ne_nil_of_colIdx hia)
  simp only [crossLink, hiu, hia, hib, hue, hbe, Bool.or_self,
    Bool.false_eq_true, if_false]
  refine ⟨_, rfl, ?_⟩
  rw [getCol_setCol_self _ hwfu (by simp)]
  congr 1
  exact map_congr_mem (fun r _ => by rw [lastAssoc_eq_firstAssoc hnodup])

/-- Witness for C5: the specification's example — buildings
`{B1→A1, B2→A2}`, units `{U1→B1, U2→B3}` yield `U1.areaId = A1`,
`U2.areaId = null`. -/
theorem c5_crosslink_witness :
    getCol ((crossLink
        ⟨["buildingId", "areaId"], [[Val.str "B1", Val.str "A1"], [Val.str "B2", Val.str "A2"]]⟩
        ⟨["utilityUnitId", "buildingId"],
         [[Val.str "U1", Val.str "B1"], [Val.str "U2", Val.str "B3"]]⟩).getD ⟨[], []⟩)
      "areaId" = some [Val.str "A1", Val.null] := by
  obtain ⟨df2, h1, h2⟩ := c5_crosslink
    ⟨["buildingId", "areaId"], [[Val.str "B1", Val.str "A1"], [Val.str "B2", Val.str "A2"]]⟩
    ⟨["utilityUnitId", "buildingId"],
     [[Val.str "U1", Val.str "B1"], [Val.str "U2", Val.str "B3"]]⟩
    1 0 1 (by decide) (by decide) (by decide) (by decide) (by decide) (by decide)
    (by decide) (by decide)
  rw [h1]
  simp only [Option.getD_some]
  rw [h2]
  decide

/-- C6: in the meter and contract transformers, every missing (null)
`billableTo` / `endDate` cell is replaced by the sentinel `"2099-12-31"`,
which then parses to the valid date `2099-12-31`; and every cell of the
parsed date columns (`billableFrom`/`billableTo`, `startDate`/`endDate`)
that is an unparseable string — such as `"not-a-date"` — is coerced to
the null marker without raising. -/
theorem c6_sentinel_dates (dfm dfc : DataFrame) (bt ed : List Val)
    (hwfm : dfm.WF) (hwfc : dfc.WF)
    (hem : dfEmpty dfm = false) (hec : dfEmpty dfc = false)
    (hbt : getCol dfm "billableTo" = some bt)
    (hed : getCol dfc "endDate" = some ed) :
    (∃ dm, transform_meters dfm = Except.ok dm ∧
      getCol dm "billableTo" =
        some (bt.map (fun v => toDateVal (fillnaVal (Val.str "2099-12-31") v))) ∧
      ∀ bf, getCol dfm "billableFrom" = some bf →
        getCol dm "billableFrom" = some (bf.map toDateVal)) ∧
    (∃ dc, transform_contracts dfc = Except.ok dc ∧
      getCol dc "endDate" =
        some (ed.map (fun v => toDateVal (fillnaVal (Val.str "2099-12-31") v))) ∧
      ∀ sd, getCol dfc "startDate" = some sd →
        getCol dc "startDate" = some (sd.map toDateVal)) ∧
    toDateVal (fillnaVal (Val.str "2099-12-31") Val.null) = Val.date 2099 12 31 ∧
    toDateVal (Val.str "not-a-date") = Val.null := by
  refine ⟨?_, ?_, by decide, by decide⟩
  · -- meters
    have h1 : getCol (safe_rename_columns dfm
        [("id", "meterId"), ("activeState", "meterActiveState")]) "billableTo" = some bt :=
      (getCol_rename_untouched (by decide) (by decide)).trans hbt
    have hwf1 : (safe_rename_columns dfm
        [("id", "meterId"), ("activeState", "meterActiveState")]).WF := WF_rename _ hwfm
    have hlen : (bt.map (fillnaVal (Val.str "2099-12-31"))).length =
        (safe_rename_columns dfm
          [("id", "meterId"), ("activeState", "meterActiveState")]).rows.length := by
      rw [List.length_map]
      exact length_of_getCol h1
    have h2self : getCol (setCol (safe_rename_columns dfm
        [("id", "meterId"), ("activeState", "meterActiveState")]) "billableTo"
        (bt.map (fillnaVal (Val.str "2099-12-31")))) "billableTo" =
        some (bt.map (fillnaVal (Val.str "2099-12-31"))) :=
      getCol_setCol_self _ hwf1 hlen
    have hwf2 : (setCol (safe_rename_columns dfm
        [("id", "meterId"), ("activeState", "meterActiveState")]) "billableTo"
        (bt.map (fillnaVal (Val.str "2099-12-31")))).WF := WF_setCol _ hwf1
    have hwf3 : (dateCoerceCol (setCol (safe_rename_columns dfm
        [("id", "meterId"), ("activeState", "meterActiveState")]) "billableTo"
        (bt.map (fillnaVal (Val.str "2099-12-31")))) "billableFrom").WF :=
      WF_dateCoerce _ hwf2
    have h3 : getCol (dateCoerceCol (setCol (safe_rename_columns dfm
        [("id", "meterId"), ("activeState", "meterActiveState")]) "billableTo"
        (bt.map (fillnaVal (Val.str "2099-12-31")))) "billableFrom") "billableTo" =
        some (bt.map (fillnaVal (Val.str "2099-12-31"))) := by
      rw [getCol_dateCoerce_other (by decide) hwf2]
      exact h2self
    simp only [transform_meters, hem, Bool.false_eq_true, if_false]
    rw [h1]
    refine ⟨_, rfl, ?_, ?_⟩
    · rw [getCol_dateCoerce_self hwf3 h3, List.map_map]
      rfl
    · intro bf hbf
      have hb1 : getCol (safe_rename_columns dfm
          [("id", "meterId"), ("activeState", "meterActiveState")]) "billableFrom" =
          some bf :=
        (getCol_rename_untouched (by decide) (by decide)).trans hbf
      have hb2 : getCol (setCol (safe_rename_columns dfm
          [("id", "meterId"), ("activeState", "meterActiveState")]) "billableTo"
          (bt.map (fillnaVal (Val.str "2099-12-31")))) "billableFrom" = some bf := by
        rw [getCol_setCol_other (by decide) hwf1 hlen]
        exact hb1
      have hb3 : getCol (dateCoerceCol (setCol (safe_rename_columns dfm
          [("id", "meterId"), ("activeState", "meterActiveState")]) "billableTo"
          (bt.map (fillnaVal (Val.str "2099-12-31")))) "billableFrom") "billableFrom" =
          some (bf.map toDateVal) :=
        getCol_dateCoerce_self hwf2 hb2
      rw [getCol_dateCoerce_other (by decide) hwf3]
      exact hb3
  · -- contracts
    have hP : getCol (contractsProductStage dfc) "endDate" = some ed :=
      getCol_productStage hwfc (by decide) hed
    have hwfP : (contractsProductStage dfc).WF := WF_productStage hwfc
    have hR : getCol (safe_rename_columns (contractsProductStage dfc)
        contractsRenameMap) "endDate" = some ed :=
      (getCol_rename_untouched (by decide) (by decide)).trans hP
    have hwfR : (safe_rename_columns (contractsProductStage dfc) contractsRenameMap).WF :=
      WF_rename _ hwfP
    have h3 : getCol (contractsSelectStage (safe_rename_columns
        (contractsProductStage dfc) contractsRenameMap)) "endDate" = some ed :=
      getCol_selectStage (by decide) hR
    have hwf3 : (contractsSelectStage (safe_rename_columns
        (contractsProductStage dfc) contractsRenameMap)).WF :=
      WF_selectStage _
    have hlen4 : (ed.map (fillnaVal (Val.str "2099-12-31"))).length =
        (contractsSelectStage (safe_rename_columns
          (contractsProductStage dfc) contractsRenameMap)).rows.length := by
      rw [List.length_map]
      exact length_of_getCol h3
    have h4self : getCol (setCol (contractsSelectStage (safe_rename_columns
        (contractsProductStage dfc) contractsRenameMap)) "endDate"
        (ed.map (fillnaVal (Val.str "2099-12-31")))) "endDate" =
        some (ed.map (fillnaVal (Val.str "2099-12-31"))) :=
      getCol_setCol_self _ hwf3 hlen4
    have hwf4 : (setCol (contractsSelectStage (safe_rename_columns
        (contractsProductStage dfc) contractsRenameMap)) "endDate"
        (ed.map (fillnaVal (Val.str "2099-12-31")))).WF := WF_setCol _ hwf3
    have hwf5 : (dateCoerceCol (setCol (contractsSelectStage (safe_rename_columns
        (contractsProductStage dfc) contractsRenameMap)) "endDate"
        (ed.map (fillnaVal (Val.str "2099-12-31")))) "startDate").WF :=
      WF_dateCoerce _ hwf4
    have h5 : getCol (dateCoerceCol (setCol (contractsSelectStage (safe_rename_columns
        (contractsProductStage dfc) contractsRenameMap)) "endDate"
        (ed.map (fillnaVal (Val.str "2099-12-31")))) "startDate") "endDate" =
        some (ed.map (fillnaVal (Val.str "2099-12-31"))) := by
      rw [getCol_dateCoerce_other (by decide) hwf4]
      exact h4self
    simp only [transform_contracts, hec, Bool.false_eq_true, if_false]
    rw [h3]
    refine ⟨_, rfl, ?_, ?_⟩
    · rw [getCol_dateCoerce_self hwf5 h5, List.map_map]
      rfl
    · intro sd hsd
      have hPs : getCol (contractsProductStage dfc) "startDate" = some sd :=
        getCol_productStage hwfc (by decide) hsd
      have hRs : getCol (safe_rename_columns (contractsProductStage dfc)
          contractsRenameMap) "startDate" = some sd :=
        (getCol_rename_untouched (by decide) (by decide)).trans hPs
      have h3s : getCol (contractsSelectStage (safe_rename_columns
          (contractsProductStage dfc) contractsRenameMap)) "startDate" = some sd :=
        getCol_selectStage (by decide) hRs
      have h4s : getCol (setCol (contractsSelectStage (safe_rename_columns
          (contractsProductStage dfc) contractsRenameMap)) "endDate"
          (ed.map (fillnaVal (Val.str "2099-12-31")))) "startDate" = some sd := by
        rw [getCol_setCol_other (by decide) hwf3 hlen4]
        exact h3s
      have h5s : getCol (dateCoerceCol (setCol (contractsSelectStage (safe_rename_columns
          (contractsProductStage dfc) contractsRenameMap)) "endDate"
          (ed.map (fillnaVal (Val.str "2099-12-31")))) "startDate") "startDate" =
          some (sd.map toDateVal) :=
        getCol_dateCoerce_self hwf4 h4s
      rw [getCol_dateCoerce_other (by decide) hwf5]
      exact h5s

/-- Witness for C6: a meters table with a null and an unparseable
`billableTo` and a contracts table with a null `endDate` and an
unparseable `startDate`. -/
theorem c6_sentinel_dates_witness :
    getCol ((transform_meters
        ⟨["billableTo", "billableFrom"],
         [[Val.null, Val.str "2020-01-05"], [Val.str "not-a-date", Val.null]]⟩).toOption.getD
      ⟨[], []⟩) "billableTo" = some [Val.date 2099 12 31, Val.null] ∧
    getCol ((transform_contracts
        ⟨["endDate", "startDate"],
         [[Val.null, Val.str "not-a-date"]]⟩).toOption.getD
      ⟨[], []⟩) "endDate" = some [Val.date 2099 12 31] := by
  obtain ⟨⟨dm, hm1, hm2, _⟩, ⟨dc, hc1, hc2, _⟩, _, _⟩ :=
    c6_sentinel_dates
      ⟨["billableTo", "billableFrom"],
       [[Val.null, Val.str "2020-01-05"], [Val.str "not-a-date", Val.null]]⟩
      ⟨["endDate", "startDate"], [[Val.null, Val.str "not-a-date"]]⟩
      [Val.null, Val.str "not-a-date"] [Val.null]
      (by decide) (by decide) (by decide) (by decide) (by decide) (by decide)
  constructor
  · rw [hm1]
    simp only [Except.toOption, Option.getD_some]
    rw [hm2]
    decide
  · rw [hc1]
    simp only [Except.toOption, Option.getD_some]
    rw [hc2]
    decide

end EBP
